import Mathlib

/-!
Verification of the `ubl-auth` Ed25519 JWT verifier (`src/lib.rs`).

The Rust source is shallowly embedded below.  Pure library code (claim
validation, key resolution, token splitting, base64url decoding, the JWKS
cache) is translated directly into executable Lean definitions.  External
collaborators that the crate merely calls — the Ed25519 primitive
(`ed25519_dalek`), HTTP transport (`ureq`), JSON parsing (`serde_json`) and
UTF-8 validation (`String::from_utf8`) — are modelled as parameters
collected in an `Env` record, matching the design document's "out of scope,
treated as external collaborators" list.  Machine integers (`i64`) are
modelled as `Int` with explicit wrapping (`wrap64`) at every addition the
source performs, i.e. release-mode two's-complement semantics.
-/

namespace UblAuth

/-- Model of `serde_json::Value`: a JSON-equivalent tree.  Objects are
association lists (serde's map, already de-duplicated by the external
parser). -/
inductive Json where
  | null
  | bool (b : Bool)
  | num (n : Int)
  | str (s : String)
  | arr (elems : List Json)
  | obj (fields : List (String × Json))

/-- Association-list lookup used by `Json.get` (first binding wins, as in a
map). -/
def lookupField : List (String × Json) → String → Option Json
  | [], _ => none
  | (k, v) :: rest, key => if k = key then some v else lookupField rest key

/-- Model of `serde_json::Value::get` for a string key: a lookup on an
object, `None` on any other value. -/
def Json.get : Json → String → Option Json
  | .obj fields, key => lookupField fields key
  | _, _ => none

/-- Model of `serde_json::Value::as_str`. -/
def Json.as_str : Json → Option String
  | .str s => some s
  | _ => none

/-- Model of `header.get(k).and_then(|v| v.as_str())` (lib.rs lines
130 and 132). -/
def headerStr (header : Json) (key : String) : Option String :=
  (header.get key).bind Json.as_str

/-- The `Aud` enum of lib.rs lines 36-41: a single audience string or a
list. -/
inductive Aud where
  | One (s : String)
  | Many (v : List String)
deriving DecidableEq

/-- The `Claims` struct of lib.rs lines 15-34.  `extra` is the flattened
open-ended map of unknown claims. -/
structure Claims where
  sub : String
  iss : Option String := none
  aud : Option Aud := none
  exp : Option Int := none
  nbf : Option Int := none
  iat : Option Int := none
  jti : Option String := none
  scope : Option String := none
  extra : List (String × Json) := []

/-- The `VerifyOptions` struct of lib.rs lines 43-49. -/
structure VerifyOptions where
  leeway_secs : Int
  issuer : Option String := none
  audience : Option String := none
  now : Option Int := none
deriving DecidableEq

/-- The `Default` impl of lib.rs lines 50-54. -/
def VerifyOptions.default : VerifyOptions :=
  { leeway_secs := 300, issuer := none, audience := none, now := none }

/-- The `VerifyError` enum of lib.rs lines 62-92. -/
inductive VerifyError where
  | BadFormat
  | Base64
  | Json
  | Alg
  | Kid
  | JwksHttp (msg : String)
  | JwksJson
  | NoKey
  | Signature
  | Expired
  | NotYetValid
  | Issuer
  | Audience
  | MissingSub
deriving DecidableEq

/-- Two's-complement wrap into the `i64` range: the value the additions in
`check_claims` produce in release builds when they overflow. -/
def wrap64 (x : Int) : Int := (x + 2 ^ 63) % 2 ^ 64 - 2 ^ 63

/-- Membership in the representable `i64` range. -/
def i64Range (x : Int) : Prop := -(2 ^ 63) ≤ x ∧ x < 2 ^ 63

instance (x : Int) : Decidable (i64Range x) := by
  unfold i64Range; infer_instance

/-- The `check_claims` function of lib.rs lines 189-213, with the two
`i64` additions wrapped.  `nowClock` stands for the external wall clock
`now_ts()`, used only when `opts.now` is `None` (line 190). -/
def check_claims (nowClock : Int) (c : Claims) (opts : VerifyOptions) : Except VerifyError Unit :=
  let now := opts.now.getD nowClock
  if c.sub = "" then .error .MissingSub
  else if c.exp.any (fun exp => decide (now > wrap64 (exp + opts.leeway_secs))) then
    .error .Expired
  else if c.nbf.any (fun nbf => decide (wrap64 (now + opts.leeway_secs) < nbf)) then
    .error .NotYetValid
  else if c.iat.any (fun iat => decide (iat > wrap64 (now + opts.leeway_secs))) then
    .error .NotYetValid
  else if opts.issuer.any (fun iss => decide (c.iss ≠ some iss)) then
    .error .Issuer
  else
    match opts.audience with
    | none => .ok ()
    | some aud =>
      match c.aud with
      | none => .error .Audience
      | some (Aud.One s) => if s ≠ aud then .error .Audience else .ok ()
      | some (Aud.Many v) =>
        if !(v.any (fun x => x == aud)) then .error .Audience else .ok ()

/-- Follows the spec's words for the claim validator: identical to
`check_claims` except that the time-window additions are exact integer
arithmetic ("fail Expired when now > exp + leeway", etc.), with no
wrap-around.  Used to compare the source semantics against the spec. -/
def check_claims_spec (nowClock : Int) (c : Claims) (opts : VerifyOptions) : Except VerifyError Unit :=
  let now := opts.now.getD nowClock
  if c.sub = "" then .error .MissingSub
  else if c.exp.any (fun exp => decide (now > exp + opts.leeway_secs)) then
    .error .Expired
  else if c.nbf.any (fun nbf => decide (now + opts.leeway_secs < nbf)) then
    .error .NotYetValid
  else if c.iat.any (fun iat => decide (iat > now + opts.leeway_secs)) then
    .error .NotYetValid
  else if opts.issuer.any (fun iss => decide (c.iss ≠ some iss)) then
    .error .Issuer
  else
    match opts.audience with
    | none => .ok ()
    | some aud =>
      match c.aud with
      | none => .error .Audience
      | some (Aud.One s) => if s ≠ aud then .error .Audience else .ok ()
      | some (Aud.Many v) =>
        if !(v.any (fun x => x == aud)) then .error .Audience else .ok ()

/-- The `Jwk` struct of lib.rs line 95: one public-key record of a key-set
document. -/
structure Jwk where
  kty : String
  crv : Option String := none
  x : Option String := none
  kid : Option String := none
deriving DecidableEq

/-- The `Jwks` struct of lib.rs line 97: an ordered key-set document. -/
structure Jwks where
  keys : List Jwk
deriving DecidableEq

/-- The `JwksCacheEntry` struct of lib.rs line 100. -/
structure JwksCacheEntry where
  jwks : Jwks
  fetched_at : Int
deriving DecidableEq

/-- The `JwksCache` struct of lib.rs line 102.  The mutex-guarded
`HashMap` becomes an association list; the claims below only observe it
through lookups, for which the representations agree. -/
structure JwksCache where
  ttl_secs : Int
  inner : List (String × JwksCacheEntry)
deriving DecidableEq

/-- `JwksCache::new` (lib.rs line 107). -/
def JwksCache.new (ttl_secs : Int) : JwksCache :=
  { ttl_secs := ttl_secs, inner := [] }

/-- Association-list lookup standing for `HashMap::get`. -/
def lookupEntry : List (String × JwksCacheEntry) → String → Option JwksCacheEntry
  | [], _ => none
  | (k, e) :: rest, uri => if k = uri then some e else lookupEntry rest uri

/-- `JwksCache::put` (lib.rs lines 108-111): insert replaces any previous
entry for the location and stamps it with the current clock (`now_ts()`,
passed here as the explicit `now`). -/
def JwksCache.put (now : Int) (c : JwksCache) (uri : String) (jwks : Jwks) : JwksCache :=
  { ttl_secs := c.ttl_secs
    inner := (uri, { jwks := jwks, fetched_at := now }) :: c.inner.filter (fun p => p.1 != uri) }

/-- `JwksCache::get_fresh` (lib.rs lines 112-120): return the stored
directory only when an entry exists and its age is within the TTL. -/
def JwksCache.get_fresh (now : Int) (c : JwksCache) (uri : String) : Option Jwks :=
  match lookupEntry c.inner uri with
  | some entry => if now - entry.fetched_at ≤ c.ttl_secs then some entry.jwks else none
  | none => none

/-- Value of one character in the URL-safe base64 alphabet used by the
`URL_SAFE_NO_PAD` engine, `none` for a character outside the alphabet
(padding `=` included). -/
def b64Char (c : Char) : Option Nat :=
  if 'A' ≤ c ∧ c ≤ 'Z' then some (c.toNat - 65)
  else if 'a' ≤ c ∧ c ≤ 'z' then some (c.toNat - 97 + 26)
  else if '0' ≤ c ∧ c ≤ '9' then some (c.toNat - 48 + 52)
  else if c = '-' then some 62
  else if c = '_' then some 63
  else none

/-- Map every character to its 6-bit value, failing on the first invalid
character, as the engine does. -/
def b64Vals : List Char → Option (List Nat)
  | [] => some []
  | c :: rest =>
    match b64Char c, b64Vals rest with
    | some v, some vs => some (v :: vs)
    | _, _ => none

/-- Reassemble bytes from 6-bit values.  A remainder of one value is
invalid; remainders of two or three values must have zero trailing bits
(the engine's canonicality check, `decode_allow_trailing_bits = false`). -/
def b64Bytes : List Nat → Option (List Nat)
  | [] => some []
  | [_] => none
  | [a, b] => if b % 16 = 0 then some [a * 4 + b / 16] else none
  | [a, b, c] =>
    if c % 4 = 0 then some [a * 4 + b / 16, b % 16 * 16 + c / 4] else none
  | a :: b :: c :: d :: rest =>
    match b64Bytes rest with
    | some tail => some ((a * 4 + b / 16) :: (b % 16 * 16 + c / 4) :: (c % 4 * 64 + d) :: tail)
    | none => none

/-- Model of `URL_SAFE_NO_PAD.decode` on the characters of the input (the
alphabet is pure ASCII, so character-level and byte-level decoding accept
exactly the same strings). -/
def b64decode (cs : List Char) : Option (List Nat) :=
  match b64Vals cs with
  | some vals => b64Bytes vals
  | none => none

/-- Model of Rust `str::split('.')`: splits on every dot, keeping empty
segments, over the character list of the token. -/
def splitDots : List Char → List (List Char)
  | [] => [[]]
  | c :: rest =>
    let r := splitDots rest
    if c = '.' then [] :: r
    else
      match r with
      | [] => [[c]]
      | h :: t => (c :: h) :: t

/-- Join segments back with dots; inverse of `splitDots`. -/
def joinDots : List (List Char) → List Char
  | [] => []
  | [x] => x
  | x :: y :: rest => x ++ '.' :: joinDots (y :: rest)

/-- Verification keys are identified with their 32 raw bytes; the external
Ed25519 primitive interprets them. -/
abbrev VK := List Nat

/-- The loop body of `key_by_kid` (lib.rs lines 166-182) over the record
list.  `fb` stands for the external `VerifyingKey::from_bytes`, applied
only to 32-byte inputs as in the source.  Note the `bytes[..].try_into().ok()?`
on line 174: when a matched record's material decodes to a length other
than 32, the `?` returns `None` from the whole function. -/
def key_by_kid_go (fb : List Nat → Option VK) (kid : String) : List Jwk → Option VK
  | [] => none
  | k :: rest =>
    if k.kty ≠ "OKP" then key_by_kid_go fb kid rest
    else if k.crv ≠ some "Ed25519" then key_by_kid_go fb kid rest
    else
      if k.kid.getD "" = kid ∨ k.kid.getD "" = "" then
        match k.x with
        | none => key_by_kid_go fb kid rest
        | some x =>
          match b64decode x.data with
          | none => key_by_kid_go fb kid rest
          | some bytes =>
            if bytes.length = 32 then
              match fb bytes with
              | some vk => some vk
              | none => key_by_kid_go fb kid rest
            else none
      else key_by_kid_go fb kid rest

/-- The `key_by_kid` function of lib.rs lines 166-182. -/
def key_by_kid (fb : List Nat → Option VK) (jwks : Jwks) (kid : String) : Option VK :=
  key_by_kid_go fb kid jwks.keys

/-- Record eligibility per lib.rs lines 168-169: supported key type and
curve. -/
def Jwk.eligible (k : Jwk) : Bool :=
  k.kty == "OKP" && k.crv == some "Ed25519"

/-- Kid match per lib.rs lines 170-171: own kid equals the requested one,
or is absent/empty (wildcard). -/
def Jwk.kidMatches (k : Jwk) (kid : String) : Bool :=
  k.kid.getD "" == kid || k.kid.getD "" == ""

/-- A record's key material, when present and decodable, has the 32-byte
Ed25519 public-key length. -/
def Jwk.goodLen (k : Jwk) : Bool :=
  match k.x with
  | none => true
  | some x =>
    match b64decode x.data with
    | none => true
    | some bytes => bytes.length == 32

/-- Follows the spec's words for key resolution: the first record in
document order that is eligible, matches the requested kid (or wildcard),
and whose key material decodes and constructs successfully wins; every
failure kind — absent material, undecodable material, wrong length, failed
construction — skips to the next candidate. -/
def resolve_spec_go (fb : List Nat → Option VK) (kid : String) : List Jwk → Option VK
  | [] => none
  | k :: rest =>
    if k.kty ≠ "OKP" then resolve_spec_go fb kid rest
    else if k.crv ≠ some "Ed25519" then resolve_spec_go fb kid rest
    else
      if k.kid.getD "" = kid ∨ k.kid.getD "" = "" then
        match k.x with
        | none => resolve_spec_go fb kid rest
        | some x =>
          match b64decode x.data with
          | none => resolve_spec_go fb kid rest
          | some bytes =>
            if bytes.length = 32 then
              match fb bytes with
              | some vk => some vk
              | none => resolve_spec_go fb kid rest
            else resolve_spec_go fb kid rest
      else resolve_spec_go fb kid rest

/-- Spec-side key resolution over a key-set document. -/
def resolve_spec (fb : List Nat → Option VK) (jwks : Jwks) (kid : String) : Option VK :=
  resolve_spec_go fb kid jwks.keys

/-- Fetch failures of `fetch_jwks` (lib.rs lines 160-164): transport
errors and key-set parse errors, the only error kinds that function
produces. -/
inductive FetchError where
  | http (msg : String)
  | json
deriving DecidableEq

/-- The error mapping inside `fetch_jwks`. -/
def FetchError.toVerifyError : FetchError → VerifyError
  | .http msg => .JwksHttp msg
  | .json => .JwksJson

/-- External collaborators of the core (spec section 1, "OUT OF SCOPE"):
UTF-8 validation of decoded bytes (`String::from_utf8`), JSON parsing
(`serde_json::from_str`), claim-shape parsing (`serde_json::from_value`),
the Ed25519 primitive (`VerifyingKey::from_bytes` / `verify_strict`), the
transport fetch of the key-set document (`fetch_jwks`), and the wall clock
(`now_ts`). -/
structure Env where
  utf8 : List Nat → Option String
  parseJson : String → Option Json
  claimsOfJson : Json → Option Claims
  fromBytes : List Nat → Option VK
  verifyStrict : VK → List Char → List Nat → Bool
  fetch : String → Except FetchError Jwks
  now : Int

/-- The `split_and_decode` function of lib.rs lines 148-158, in source
order: segment count, header base64 + UTF-8, payload base64 + UTF-8,
signature base64 and 64-byte length, then the two JSON parses.  The
signing input is the original first and second segments joined by a
dot. -/
def split_and_decode (env : Env) (token : String) :
    Except VerifyError (Json × Json × List Nat × List Char) :=
  match splitDots token.data with
  | [p0, p1, p2] =>
    match b64decode p0 with
    | none => .error .Base64
    | some headerBytes =>
      match env.utf8 headerBytes with
      | none => .error .Base64
      | some headerText =>
        match b64decode p1 with
        | none => .error .Base64
        | some payloadBytes =>
          match env.utf8 payloadBytes with
          | none => .error .Base64
          | some payloadText =>
            match b64decode p2 with
            | none => .error .Base64
            | some sigBytes =>
              if sigBytes.length = 64 then
                match env.parseJson headerText with
                | none => .error .Json
                | some header =>
                  match env.parseJson payloadText with
                  | none => .error .Json
                  | some payload => .ok (header, payload, sigBytes, p0 ++ '.' :: p1)
              else .error .Signature
  | _ => .error .BadFormat

/-- The tail of `verify_ed25519_jwt_with_cache` after the key-set document
is in hand (lib.rs lines 139-145): key resolution, signature check, claim
parse, claim validation.  `cache2` is the cache state produced by the
resolution step. -/
def verify_tail (env : Env) (kid : String) (signingInput : List Char) (sig : List Nat)
    (payload : Json) (opts : VerifyOptions) (cache2 : JwksCache) (jwks : Jwks) :
    Except VerifyError Claims × JwksCache :=
  match key_by_kid env.fromBytes jwks kid with
  | none => (.error .NoKey, cache2)
  | some vk =>
    if env.verifyStrict vk signingInput sig then
      match env.claimsOfJson payload with
      | none => (.error .Json, cache2)
      | some claims =>
        match check_claims env.now claims opts with
        | .error e => (.error e, cache2)
        | .ok _ => (.ok claims, cache2)
    else (.error .Signature, cache2)

/-- The `verify_ed25519_jwt_with_cache` function of lib.rs lines 127-146.
Returns the verification outcome together with the cache state after the
call. -/
def verify_ed25519_jwt_with_cache (env : Env) (token uri : String) (cache : JwksCache)
    (opts : VerifyOptions) : Except VerifyError Claims × JwksCache :=
  match split_and_decode env token with
  | .error e => (.error e, cache)
  | .ok (header, payload, sig, signingInput) =>
    match headerStr header "alg" with
    | none => (.error .Alg, cache)
    | some alg =>
      if alg ≠ "EdDSA" then (.error .Alg, cache)
      else
        match headerStr header "kid" with
        | none => (.error .Kid, cache)
        | some kid =>
          match JwksCache.get_fresh env.now cache uri with
          | some jwks => verify_tail env kid signingInput sig payload opts cache jwks
          | none =>
            match env.fetch uri with
            | .error e => (.error e.toVerifyError, cache)
            | .ok fetched =>
              verify_tail env kid signingInput sig payload opts
                (JwksCache.put env.now cache uri fetched) fetched

/-- Audience acceptance as the spec words it: an absent `aud` never
matches; a single string must equal the expected value exactly; a list
must contain it as an exact element. -/
def audMatchProp (expected : String) : Option Aud → Prop
  | none => False
  | some (Aud.One s) => s = expected
  | some (Aud.Many v) => expected ∈ v

instance (expected : String) (a : Option Aud) : Decidable (audMatchProp expected a) := by
  unfold audMatchProp
  rcases a with _ | a
  · infer_instance
  · rcases a <;> infer_instance

/-! Concrete fixtures used by witnesses and counterexamples. -/

/-- Header with the supported algorithm and kid `k`. -/
def hdrOk : Json := .obj [("alg", .str "EdDSA"), ("kid", .str "k")]

/-- Header with the supported algorithm and an empty-string kid. -/
def hdrEmptyKid : Json := .obj [("alg", .str "EdDSA"), ("kid", .str "")]

/-- Header with an unsupported algorithm. -/
def hdrBadAlg : Json := .obj [("alg", .str "RS256"), ("kid", .str "k")]

/-- A trivial payload object. -/
def pld0 : Json := .obj []

/-- Signature segment: 86 alphabet characters decoding to 64 zero bytes. -/
def sigSeg : String := String.mk (List.replicate 86 'A')

/-- A well-formed three-segment token: header segment decodes to byte 0,
payload segment to byte 1, signature segment to 64 bytes. -/
def tokenA : String := "AA.AQ." ++ sigSeg

/-- Three segments, but the signature segment decodes to 3 bytes. -/
def tokenShortSig : String := "AA.AQ.AAAA"

/-- Three segments with an invalid base64 header segment and a 3-byte
signature segment. -/
def tokenBadHdr : String := "!.AA.AAAA"

/-- A concrete environment: segment bytes `[0]` decode (as UTF-8) to the
text `H` and parse to the given header, bytes `[1]` to text `P` and the
trivial payload; the fetch always fails with the given error; crypto
collaborators are inert. -/
def mkEnv (hdr : Json) (fe : FetchError) : Env :=
  { utf8 := fun bs => if bs = [0] then some "H" else if bs = [1] then some "P" else none
    parseJson := fun s => if s = "H" then some hdr else if s = "P" then some pld0 else none
    claimsOfJson := fun _ => none
    fromBytes := fun _ => none
    verifyStrict := fun _ _ _ => false
    fetch := fun _ => .error fe
    now := 0 }

/-- Environment whose header carries an empty kid and whose fetch fails
with a transport error. -/
def envEmptyKid : Env := mkEnv hdrEmptyKid (.http "down")

/-- Environment whose header carries an unsupported algorithm. -/
def envBadAlg : Env := mkEnv hdrBadAlg (.http "down")

/-- Environment with a well-formed header and a parse-failing fetch. -/
def envOk : Env := mkEnv hdrOk .json

/-- An empty key-set document. -/
def jwks0 : Jwks := { keys := [] }

/-- Identity stand-in for the external key constructor: accepts every
32-byte input. -/
def fbId : List Nat → Option VK := fun bs => some bs

/-- Eligible record under kid `k` whose material decodes to one byte. -/
def jwkBadLen : Jwk := { kty := "OKP", crv := some "Ed25519", x := some "AA", kid := some "k" }

/-- A 43-character material string decoding to 32 zero bytes. -/
def x32 : String := String.mk (List.replicate 43 'A')

/-- Eligible record under kid `k` with valid 32-byte material. -/
def jwkGood : Jwk := { kty := "OKP", crv := some "Ed25519", x := some x32, kid := some "k" }

/-- Key set listing the wrong-length record before the valid one. -/
def jwksBad : Jwks := { keys := [jwkBadLen, jwkGood] }

/-- Key set with an ineligible record before the valid one. -/
def jwksW : Jwks := { keys := [{ kty := "RSA" }, jwkGood] }

/-- Claims fixture for the expiry-window witness. -/
def cW3 : Claims := { sub := "s", exp := some 10, nbf := some 0, iat := some 0 }

/-- Options fixture for the expiry-window witness. -/
def oW3 : VerifyOptions := { leeway_secs := 5, now := some 20 }

/-- Claims fixture whose expiry addition overflows `i64`. -/
def cOv : Claims := { sub := "s", exp := some (2 ^ 63 - 1) }

/-- Options fixture triggering the expiry overflow. -/
def oOv : VerifyOptions := { leeway_secs := 1, now := some 0 }

/-- Claims fixture for the not-before overflow. -/
def cOv2 : Claims := { sub := "s", nbf := some 0 }

/-- Options fixture whose `now + leeway` addition overflows `i64`. -/
def oOv2 : VerifyOptions := { leeway_secs := 1, now := some (2 ^ 63 - 1) }

/-- Claims fixture for the audience witness: list-valued audience. -/
def cW6 : Claims := { sub := "s", aud := some (.Many ["x", "demo"]) }

/-- Options fixture expecting audience `demo`. -/
def oW6 : VerifyOptions := { leeway_secs := 0, audience := some "demo", now := some 0 }

/-- Claims fixture for the agreement witness. -/
def cW10 : Claims := { sub := "s", exp := some 100, nbf := some 0, iat := some 0 }

/-- Options fixture for the agreement witness. -/
def oW10 : VerifyOptions := { leeway_secs := 1, now := some 50 }

/-! Helper lemmas. -/

theorem wrap64_eq_self {x : Int} (h : i64Range x) : wrap64 x = x := by
  rcases h with ⟨h1, h2⟩
  unfold wrap64
  rw [Int.emod_eq_of_lt (by omega) (by omega)]
  omega

theorem splitDots_ne_nil (cs : List Char) : splitDots cs ≠ [] := by
  cases cs with
  | nil => simp [splitDots]
  | cons c rest =>
    unfold splitDots
    by_cases h : c = '.'
    · simp [h]
    · simp only [h, if_false]
      cases splitDots rest <;> simp

theorem joinDots_splitDots (cs : List Char) : joinDots (splitDots cs) = cs := by
  induction cs with
  | nil => rfl
  | cons c rest ih =>
    unfold splitDots
    by_cases h : c = '.'
    · simp only [h, if_pos rfl]
      have hne := splitDots_ne_nil rest
      cases hsp : splitDots rest with
      | nil => exact absurd hsp hne
      | cons hHead hTail =>
        rw [hsp] at ih
        simp only [joinDots]
        rw [ih]
        simp [h]
    · simp only [h, if_false]
      have hne := splitDots_ne_nil rest
      cases hsp : splitDots rest with
      | nil => exact absurd hsp hne
      | cons hHead hTail =>
        rw [hsp] at ih
        cases hTail with
        | nil => simpa [joinDots] using ih
        | cons y t =>
          simp only [joinDots] at ih ⊢
          simpa [List.cons_append] using ih

theorem lookupEntry_cons_self (u : String) (e : JwksCacheEntry)
    (l : List (String × JwksCacheEntry)) : lookupEntry ((u, e) :: l) u = some e := by
  simp [lookupEntry]

/-! Claim theorems. -/

/-- C8 (amended): `get_fresh` returns the stored directory iff an entry
exists for the location and its age satisfies `now - fetched_at <= ttl`;
when the TTL is nonnegative, immediately after `put` the entry is
returned; an entry whose age exceeds the TTL is never returned. -/
theorem get_fresh_characterization (now : Int) (c : JwksCache) (uri : String) :
    (∀ j, JwksCache.get_fresh now c uri = some j ↔
      ∃ e, lookupEntry c.inner uri = some e ∧ now - e.fetched_at ≤ c.ttl_secs ∧ e.jwks = j)
    ∧ (0 ≤ c.ttl_secs →
        ∀ jwks, JwksCache.get_fresh now (JwksCache.put now c uri jwks) uri = some jwks)
    ∧ (∀ e, lookupEntry c.inner uri = some e → c.ttl_secs < now - e.fetched_at →
        JwksCache.get_fresh now c uri = none) := by
  refine ⟨?_, ?_, ?_⟩
  · intro j
    unfold JwksCache.get_fresh
    cases he : lookupEntry c.inner uri with
    | none => simp
    | some e =>
      simp only []
      by_cases hf : now - e.fetched_at ≤ c.ttl_secs
      · rw [if_pos hf]
        constructor
        · intro h
          exact ⟨e, rfl, hf, Option.some.inj h⟩
        · rintro ⟨e2, he2, hf2, hj⟩
          have heq : e = e2 := Option.some.inj he2
          subst heq
          rw [hj]
      · rw [if_neg hf]
        constructor
        · intro h
          exact Option.noConfusion h
        · rintro ⟨e2, he2, hf2, hj⟩
          have heq : e = e2 := Option.some.inj he2
          subst heq
          exact absurd hf2 hf
  · intro h jw
    unfold JwksCache.put JwksCache.get_fresh
    rw [lookupEntry_cons_self]
    simp only []
    rw [if_pos (show now - now ≤ c.ttl_secs from by omega)]
  · intro e he hs
    unfold JwksCache.get_fresh
    rw [he]
    simp only []
    rw [if_neg (show ¬ now - e.fetched_at ≤ c.ttl_secs from by omega)]

/-- Witness for C8: a fresh put on a TTL-5 cache is returned at the same
instant. -/
theorem get_fresh_characterization_witness :
    (0 : Int) ≤ (JwksCache.new 5).ttl_secs ∧
    JwksCache.get_fresh 10 (JwksCache.put 10 (JwksCache.new 5) "u" jwks0) "u" = some jwks0 :=
  ⟨by decide, (get_fresh_characterization 10 (JwksCache.new 5) "u").2.1 (by decide) jwks0⟩

/-- Counterexample for C8 as stated: on a cache constructed with TTL -1,
the entry is present immediately after `put`, yet `get_fresh` at the very
same instant returns nothing. -/
theorem cache_negative_ttl_cex :
    lookupEntry (JwksCache.put 5 (JwksCache.new (-1)) "u" jwks0).inner "u" =
      some { jwks := jwks0, fetched_at := 5 } ∧
    JwksCache.get_fresh 5 (JwksCache.put 5 (JwksCache.new (-1)) "u" jwks0) "u" = none :=
  ⟨rfl, rfl⟩

/-- C9: when the cache has no fresh entry and the fetch of the key-set
document fails, verification returns that fetch error (a transport or
parse failure) and the cache is returned exactly as it was. -/
theorem fetch_failure_cache_unchanged (env : Env) (token uri : String) (cache : JwksCache)
    (opts : VerifyOptions) (header payload : Json) (sig : List Nat) (si : List Char)
    (kid : String) (fe : FetchError)
    (hsplit : split_and_decode env token = .ok (header, payload, sig, si))
    (halg : headerStr header "alg" = some "EdDSA")
    (hkid : headerStr header "kid" = some kid)
    (hmiss : JwksCache.get_fresh env.now cache uri = none)
    (hfetch : env.fetch uri = .error fe) :
    verify_ed25519_jwt_with_cache env token uri cache opts = (.error fe.toVerifyError, cache) := by
  unfold verify_ed25519_jwt_with_cache
  simp only [hsplit, halg, hkid, hmiss, hfetch]
  simp

/-- Witness for C9 at a concrete token, environment and empty cache. -/
theorem fetch_failure_cache_unchanged_witness :
    split_and_decode envOk tokenA = .ok (hdrOk, pld0, List.replicate 64 0, "AA.AQ".data) ∧
    headerStr hdrOk "alg" = some "EdDSA" ∧
    headerStr hdrOk "kid" = some "k" ∧
    JwksCache.get_fresh envOk.now (JwksCache.new 300) "u" = none ∧
    envOk.fetch "u" = .error .json ∧
    verify_ed25519_jwt_with_cache envOk tokenA "u" (JwksCache.new 300) VerifyOptions.default =
      (.error (FetchError.toVerifyError .json), JwksCache.new 300) :=
  ⟨rfl, rfl, rfl, rfl, rfl,
    fetch_failure_cache_unchanged envOk tokenA "u" (JwksCache.new 300) VerifyOptions.default
      hdrOk pld0 (List.replicate 64 0) "AA.AQ".data "k" .json rfl rfl rfl rfl rfl⟩

/-- C4: a decoded header whose algorithm field is anything but the exact
string EdDSA is rejected with Alg, for every environment (hence before and
independently of any fetch, key resolution or signature check), and the
cache is left untouched. -/
theorem alg_allowlist (env : Env) (token uri : String) (cache : JwksCache) (opts : VerifyOptions)
    (header payload : Json) (sig : List Nat) (si : List Char)
    (hsplit : split_and_decode env token = .ok (header, payload, sig, si))
    (halg : headerStr header "alg" ≠ some "EdDSA") :
    verify_ed25519_jwt_with_cache env token uri cache opts = (.error .Alg, cache) := by
  unfold verify_ed25519_jwt_with_cache
  rw [hsplit]
  cases ha : headerStr header "alg" with
  | none => simp [ha]
  | some a =>
    have hne : a ≠ "EdDSA" := fun h => halg (h ▸ ha)
    simp [ha, hne]

/-- Witness for C4: a token whose header carries algorithm RS256 is
rejected with Alg. -/
theorem alg_allowlist_witness :
    split_and_decode envBadAlg tokenA = .ok (hdrBadAlg, pld0, List.replicate 64 0, "AA.AQ".data) ∧
    headerStr hdrBadAlg "alg" = some "RS256" ∧
    verify_ed25519_jwt_with_cache envBadAlg tokenA "u" (JwksCache.new 300) VerifyOptions.default =
      (.error .Alg, JwksCache.new 300) :=
  ⟨rfl, rfl,
    alg_allowlist envBadAlg tokenA "u" (JwksCache.new 300) VerifyOptions.default
      hdrBadAlg pld0 (List.replicate 64 0) "AA.AQ".data rfl (by decide)⟩

theorem split_and_decode_ne_kid (env : Env) (token : String) :
    split_and_decode env token ≠ .error .Kid := by
  intro h
  unfold split_and_decode at h
  repeat' split at h
  all_goals simp at h

theorem check_claims_ne_kid (n : Int) (c : Claims) (o : VerifyOptions) :
    check_claims n c o ≠ .error .Kid := by
  intro h
  unfold check_claims at h
  split_ifs at h <;> try simp at h
  all_goals repeat' split at h
  all_goals simp at h

theorem verify_tail_ne_kid (env : Env) (kid : String) (si : List Char) (sig : List Nat)
    (payload : Json) (opts : VerifyOptions) (cache2 : JwksCache) (jwks : Jwks) :
    (verify_tail env kid si sig payload opts cache2 jwks).1 ≠ .error .Kid := by
  intro h
  unfold verify_tail at h
  cases hk : key_by_kid env.fromBytes jwks kid with
  | none => rw [hk] at h; simp at h
  | some vk =>
    rw [hk] at h
    simp only [] at h
    by_cases hv : env.verifyStrict vk si sig = true
    · rw [if_pos hv] at h
      cases hc : env.claimsOfJson payload with
      | none => rw [hc] at h; simp at h
      | some claims =>
        rw [hc] at h
        simp only [] at h
        cases hcc : check_claims env.now claims opts with
        | error e =>
          rw [hcc] at h
          simp at h
          exact check_claims_ne_kid env.now claims opts (by rw [hcc, h])
        | ok u => rw [hcc] at h; simp at h
    · rw [if_neg hv] at h
      simp at h

/-- C2 (amended): verification fails with Kid exactly when the decoded
header (of a token that decodes, under the supported algorithm) has no
string-valued kid field at all; an empty-string kid passes the check and
proceeds to key resolution. -/
theorem kid_error_iff (env : Env) (token uri : String) (cache : JwksCache)
    (opts : VerifyOptions) :
    (verify_ed25519_jwt_with_cache env token uri cache opts).1 = .error .Kid ↔
    ∃ header payload sig si, split_and_decode env token = .ok (header, payload, sig, si) ∧
      headerStr header "alg" = some "EdDSA" ∧ headerStr header "kid" = none := by
  constructor
  · intro h
    unfold verify_ed25519_jwt_with_cache at h
    cases hs : split_and_decode env token with
    | error e =>
      rw [hs] at h
      simp at h
      rw [h] at hs
      exact absurd hs (split_and_decode_ne_kid env token)
    | ok tup =>
      obtain ⟨header, payload, sig, si⟩ := tup
      rw [hs] at h
      simp only [] at h
      cases ha : headerStr header "alg" with
      | none => rw [ha] at h; simp at h
      | some alg =>
        rw [ha] at h
        simp only [] at h
        by_cases hal : alg = "EdDSA"
        · subst hal
          rw [if_neg (by simp)] at h
          cases hk : headerStr header "kid" with
          | none => exact ⟨header, payload, sig, si, rfl, ha, hk⟩
          | some kid =>
            rw [hk] at h
            simp only [] at h
            cases hg : JwksCache.get_fresh env.now cache uri with
            | some jwks =>
              rw [hg] at h
              exact absurd h (verify_tail_ne_kid env kid si sig payload opts cache jwks)
            | none =>
              rw [hg] at h
              simp only [] at h
              cases hf : env.fetch uri with
              | error fe =>
                rw [hf] at h
                simp at h
                cases fe <;> simp [FetchError.toVerifyError] at h
              | ok fetched =>
                rw [hf] at h
                exact absurd h
                  (verify_tail_ne_kid env kid si sig payload opts
                    (JwksCache.put env.now cache uri fetched) fetched)
        · rw [if_pos hal] at h
          simp at h
  · rintro ⟨header, payload, sig, si, hok, halg, hkid⟩
    unfold verify_ed25519_jwt_with_cache
    rw [hok]
    simp only [halg, hkid]
    simp

/-- Counterexample for C2 as stated: a token whose decoded header carries
an empty-string kid is not rejected with Kid; it proceeds to key
resolution and here surfaces the fetch failure instead. -/
theorem kid_empty_accepted_cex :
    split_and_decode envEmptyKid tokenA =
      .ok (hdrEmptyKid, pld0, List.replicate 64 0, "AA.AQ".data) ∧
    headerStr hdrEmptyKid "kid" = some "" ∧
    (verify_ed25519_jwt_with_cache envEmptyKid tokenA "u" (JwksCache.new 300)
      VerifyOptions.default).1 = .error (.JwksHttp "down") ∧
    VerifyError.JwksHttp "down" ≠ VerifyError.Kid :=
  ⟨rfl, rfl, rfl, by decide⟩

/-- C5: whenever decoding succeeds, the signing input is exactly the
original first segment, a dot, and the original second segment, and the
token itself is those segments joined by dots — never a re-serialization. -/
theorem signing_input_original_segments (env : Env) (token : String) (header payload : Json)
    (sig : List Nat) (si : List Char)
    (hsplit : split_and_decode env token = .ok (header, payload, sig, si)) :
    ∃ p0 p1 p2, splitDots token.data = [p0, p1, p2] ∧ si = p0 ++ '.' :: p1 ∧
      token.data = p0 ++ '.' :: (p1 ++ '.' :: p2) := by
  unfold split_and_decode at hsplit
  split at hsplit
  case _ p0 p1 p2 heq =>
    refine ⟨p0, p1, p2, heq, ?_, ?_⟩
    · repeat' split at hsplit
      all_goals simp at hsplit
      obtain ⟨-, -, -, h4⟩ := hsplit
      exact h4.symm
    · have hj := joinDots_splitDots token.data
      rw [heq] at hj
      simp only [joinDots] at hj
      exact hj.symm
  case _ => exact Except.noConfusion hsplit

/-- Witness for C5 at a concrete token. -/
theorem signing_input_original_segments_witness :
    split_and_decode envOk tokenA = .ok (hdrOk, pld0, List.replicate 64 0, "AA.AQ".data) ∧
    ∃ p0 p1 p2, splitDots tokenA.data = [p0, p1, p2] ∧ "AA.AQ".data = p0 ++ '.' :: p1 ∧
      tokenA.data = p0 ++ '.' :: (p1 ++ '.' :: p2) :=
  ⟨rfl, signing_input_original_segments envOk tokenA hdrOk pld0 (List.replicate 64 0)
    "AA.AQ".data rfl⟩

/-- C7 (amended): when the first two segments decode (base64 and UTF-8)
successfully and the third base64-decodes to a byte string whose length is
not the fixed 64-byte signature size, decoding — and with it the whole
verification — fails with Signature, for any cache, location and
options. -/
theorem sig_length_signature_error (env : Env) (token : String) (p0 p1 p2 : List Char)
    (b0 b1 bs : List Nat) (s0 s1 : String)
    (hsp : splitDots token.data = [p0, p1, p2])
    (h0 : b64decode p0 = some b0) (hu0 : env.utf8 b0 = some s0)
    (h1 : b64decode p1 = some b1) (hu1 : env.utf8 b1 = some s1)
    (h2 : b64decode p2 = some bs) (hlen : bs.length ≠ 64) :
    split_and_decode env token = .error .Signature ∧
    ∀ uri cache opts, verify_ed25519_jwt_with_cache env token uri cache opts =
      (.error .Signature, cache) := by
  have hsd : split_and_decode env token = .error .Signature := by
    unfold split_and_decode
    rw [hsp]
    simp only [h0, hu0, h1, hu1, h2]
    rw [if_neg hlen]
  refine ⟨hsd, ?_⟩
  intro uri cache opts
  unfold verify_ed25519_jwt_with_cache
  rw [hsd]

/-- Witness for C7 (amended) on a token whose third segment decodes to 3
bytes. -/
theorem sig_length_signature_error_witness :
    b64decode "AAAA".data = some [0, 0, 0] ∧
    split_and_decode envOk tokenShortSig = .error .Signature ∧
    verify_ed25519_jwt_with_cache envOk tokenShortSig "u" (JwksCache.new 300)
      VerifyOptions.default = (.error .Signature, JwksCache.new 300) :=
  ⟨rfl,
    (sig_length_signature_error envOk tokenShortSig "AA".data "AQ".data "AAAA".data
      [0] [1] [0, 0, 0] "H" "P" rfl rfl rfl rfl rfl rfl (by decide)).1,
    (sig_length_signature_error envOk tokenShortSig "AA".data "AQ".data "AAAA".data
      [0] [1] [0, 0, 0] "H" "P" rfl rfl rfl rfl rfl rfl (by decide)).2 "u"
      (JwksCache.new 300) VerifyOptions.default⟩

/-- Counterexample for C7 as stated: a three-segment token whose third
segment decodes fine to 3 bytes (not 64) is nevertheless rejected with
Base64, because its first segment fails base64 decoding first. -/
theorem sig_length_base64_preempt_cex :
    splitDots tokenBadHdr.data = ["!".data, "AA".data, "AAAA".data] ∧
    b64decode "AAAA".data = some [0, 0, 0] ∧
    ([0, 0, 0] : List Nat).length ≠ 64 ∧
    split_and_decode envOk tokenBadHdr = .error .Base64 ∧
    (verify_ed25519_jwt_with_cache envOk tokenBadHdr "u" (JwksCache.new 300)
      VerifyOptions.default).1 = .error .Base64 ∧
    VerifyError.Base64 ≠ VerifyError.Signature :=
  ⟨rfl, rfl, by decide, rfl, rfl, by decide⟩

theorem key_by_kid_go_eq_spec (fb : List Nat → Option VK) (kid : String) :
    ∀ l : List Jwk, (∀ k ∈ l, k.eligible = true → k.kidMatches kid = true → k.goodLen = true) →
      key_by_kid_go fb kid l = resolve_spec_go fb kid l := by
  intro l
  induction l with
  | nil => intro _; rfl
  | cons k rest ih =>
    intro hAll
    have hk := hAll k (List.mem_cons_self k rest)
    have ihr := ih (fun j hj => hAll j (List.mem_cons_of_mem k hj))
    unfold key_by_kid_go resolve_spec_go
    by_cases h1 : k.kty ≠ "OKP"
    · simp only [if_pos h1]
      exact ihr
    · simp only [if_neg h1]
      by_cases h2 : k.crv ≠ some "Ed25519"
      · simp only [if_pos h2]
        exact ihr
      · simp only [if_neg h2]
        by_cases h3 : k.kid.getD "" = kid ∨ k.kid.getD "" = ""
        · simp only [if_pos h3]
          cases hx : k.x with
          | none => simp only []; exact ihr
          | some x =>
            simp only []
            cases hb : b64decode x.data with
            | none => simp only []; exact ihr
            | some bytes =>
              simp only []
              by_cases h4 : bytes.length = 32
              · simp only [if_pos h4]
                cases fb bytes with
                | none => simp only []; exact ihr
                | some vk => rfl
              · exfalso
                have e1 : k.kty = "OKP" := not_not.mp h1
                have e2 : k.crv = some "Ed25519" := not_not.mp h2
                have hel : k.eligible = true := by simp [Jwk.eligible, e1, e2]
                have hm : k.kidMatches kid = true := by
                  simp only [Jwk.kidMatches, Bool.or_eq_true, beq_iff_eq]
                  exact h3
                have hg := hk hel hm
                unfold Jwk.goodLen at hg
                rw [hx] at hg
                simp only [] at hg
                rw [hb] at hg
                simp only [] at hg
                exact h4 (by simpa using hg)
        · simp only [if_neg h3]
          exact ihr

/-- C1 (amended): key resolution agrees with the spec's first-eligible-
match-with-skipping description on every key set in which no eligible,
kid-matching record's material decodes to a length other than 32 bytes;
such a record instead aborts resolution with no key at all (see the
counterexample). -/
theorem key_by_kid_resolves_spec (fb : List Nat → Option VK) (jwks : Jwks) (kid : String)
    (h : ∀ k ∈ jwks.keys, k.eligible = true → k.kidMatches kid = true → k.goodLen = true) :
    key_by_kid fb jwks kid = resolve_spec fb jwks kid :=
  key_by_kid_go_eq_spec fb kid jwks.keys h

/-- Witness for C1 (amended): a key set with an ineligible record followed
by a valid one resolves to the valid record's key, matching the spec
resolution. -/
theorem key_by_kid_resolves_spec_witness :
    (∀ k ∈ jwksW.keys, k.eligible = true → k.kidMatches "k" = true → k.goodLen = true) ∧
    key_by_kid fbId jwksW "k" = resolve_spec fbId jwksW "k" ∧
    key_by_kid fbId jwksW "k" = some (List.replicate 32 0) :=
  ⟨by decide, key_by_kid_resolves_spec fbId jwksW "k" (by decide), rfl⟩

/-- Counterexample for C1 as stated: an eligible matching record whose
material decodes to 1 byte makes resolution return no key at all, even
though the very next record is an eligible exact match that would resolve;
the claimed skip-and-continue behavior does not happen for wrong-length
material. -/
theorem key_by_kid_length_abort_cex :
    jwkBadLen.eligible = true ∧ jwkBadLen.kidMatches "k" = true ∧
    b64decode "AA".data = some [0] ∧
    key_by_kid fbId jwksBad "k" = none ∧
    key_by_kid fbId { keys := [jwkGood] } "k" = some (List.replicate 32 0) :=
  ⟨rfl, rfl, rfl, rfl, rfl⟩

theorem check_claims_eq_expired_iff (n : Int) (c : Claims) (o : VerifyOptions) :
    check_claims n c o = .error .Expired ↔
      ¬ c.sub = "" ∧
      c.exp.any (fun exp => decide (o.now.getD n > wrap64 (exp + o.leeway_secs))) = true := by
  unfold check_claims
  split_ifs with h1 h2 <;> try simp_all
  repeat' split
  all_goals simp_all

theorem check_claims_eq_nyv_iff (n : Int) (c : Claims) (o : VerifyOptions) :
    check_claims n c o = .error .NotYetValid ↔
      ¬ c.sub = "" ∧
      c.exp.any (fun exp => decide (o.now.getD n > wrap64 (exp + o.leeway_secs))) = false ∧
      (c.nbf.any (fun nbf => decide (wrap64 (o.now.getD n + o.leeway_secs) < nbf)) = true ∨
       c.iat.any (fun iat => decide (iat > wrap64 (o.now.getD n + o.leeway_secs))) = true) := by
  unfold check_claims
  split_ifs with h1 h2 <;> try simp_all
  repeat' split
  all_goals simp_all

/-- C3 (amended): with a nonempty subject and sums within the `i64` range
(so that the code's wrapping additions coincide with exact arithmetic),
the validator fails Expired exactly when `now > exp + leeway`; when the
expiry check passes it fails NotYetValid exactly when `now + leeway < nbf`
or `iat > now + leeway`; the boundaries `exp = now - leeway` and
`nbf = now + leeway` are accepted. -/
theorem check_claims_time_window (n : Int) (c : Claims) (o : VerifyOptions)
    (hsub : ¬ c.sub = "")
    (hexp : ∀ e, c.exp = some e → i64Range (e + o.leeway_secs))
    (hnow : i64Range (o.now.getD n + o.leeway_secs)) :
    (check_claims n c o = .error .Expired ↔
      ∃ e, c.exp = some e ∧ o.now.getD n > e + o.leeway_secs)
    ∧ ((∀ e, c.exp = some e → o.now.getD n ≤ e + o.leeway_secs) →
        (check_claims n c o = .error .NotYetValid ↔
          (∃ b, c.nbf = some b ∧ o.now.getD n + o.leeway_secs < b) ∨
          (∃ i, c.iat = some i ∧ i > o.now.getD n + o.leeway_secs)))
    ∧ (c.exp = some (o.now.getD n - o.leeway_secs) → check_claims n c o ≠ .error .Expired)
    ∧ ((∀ e, c.exp = some e → o.now.getD n ≤ e + o.leeway_secs) →
        c.nbf = some (o.now.getD n + o.leeway_secs) →
        (∀ i, c.iat = some i → i ≤ o.now.getD n + o.leeway_secs) →
        check_claims n c o ≠ .error .NotYetValid) := by
  have part1 : check_claims n c o = .error .Expired ↔
      ∃ e, c.exp = some e ∧ o.now.getD n > e + o.leeway_secs := by
    rw [check_claims_eq_expired_iff]
    rcases hce : c.exp with _ | e
    · simp
    · simp only [Option.any_some, wrap64_eq_self (hexp e hce)]
      simp [hsub]
  have part2 : (∀ e, c.exp = some e → o.now.getD n ≤ e + o.leeway_secs) →
      (check_claims n c o = .error .NotYetValid ↔
        (∃ b, c.nbf = some b ∧ o.now.getD n + o.leeway_secs < b) ∨
        (∃ i, c.iat = some i ∧ i > o.now.getD n + o.leeway_secs)) := by
    intro hok
    rw [check_claims_eq_nyv_iff]
    have hexpany :
        c.exp.any (fun exp => decide (o.now.getD n > wrap64 (exp + o.leeway_secs))) = false := by
      rcases hce : c.exp with _ | e
      · simp
      · have hr := wrap64_eq_self (hexp e hce)
        have hle := hok e hce
        simp only [Option.any_some, hr, decide_eq_false_iff_not]
        omega
    have hnbf_iff :
        (c.nbf.any fun b => decide (wrap64 (o.now.getD n + o.leeway_secs) < b)) = true ↔
          ∃ b, c.nbf = some b ∧ o.now.getD n + o.leeway_secs < b := by
      rcases hcb : c.nbf with _ | b
      · simp
      · simp [wrap64_eq_self hnow]
    have hiat_iff :
        (c.iat.any fun i => decide (i > wrap64 (o.now.getD n + o.leeway_secs))) = true ↔
          ∃ i, c.iat = some i ∧ i > o.now.getD n + o.leeway_secs := by
      rcases hci : c.iat with _ | i
      · simp
      · simp [wrap64_eq_self hnow]
    rw [hnbf_iff, hiat_iff]
    simp [hsub, hexpany]
  refine ⟨part1, part2, ?_, ?_⟩
  · intro hce hEx
    rcases part1.mp hEx with ⟨e, he, hgt⟩
    rw [hce] at he
    have heq : o.now.getD n - o.leeway_secs = e := Option.some.inj he
    omega
  · intro hok hnb hiatok hEx
    rcases (part2 hok).mp hEx with ⟨b, hb, hlt⟩ | ⟨i, hi, hgt⟩
    · rw [hnb] at hb
      have heq : o.now.getD n + o.leeway_secs = b := Option.some.inj hb
      omega
    · have := hiatok i hi
      omega

/-- Witness for C3 (amended): now 20, leeway 5, expiry 10 — the window is
exceeded and the validator reports Expired. -/
theorem check_claims_time_window_witness :
    ¬ cW3.sub = "" ∧ i64Range (oW3.now.getD 0 + oW3.leeway_secs) ∧
    check_claims 0 cW3 oW3 = .error .Expired :=
  ⟨by decide, by decide,
    (check_claims_time_window 0 cW3 oW3 (by decide)
      (fun e he => by cases he; decide) (by decide)).1.mpr ⟨10, rfl, by decide⟩⟩

/-- Counterexample for C3 as stated: with `exp = 2^63 - 1` and leeway 1
the sum wraps to the minimum `i64`, so the validator reports Expired at
`now = 0` even though `now > exp + leeway` is false in exact
arithmetic. -/
theorem check_claims_overflow_expired_cex :
    check_claims 0 cOv oOv = .error .Expired ∧
    ¬ ((0 : Int) > (2 ^ 63 - 1) + 1) :=
  ⟨rfl, by decide⟩

/-- C6: once the subject, time and issuer checks pass, an expected
audience rejects with Audience exactly when the claims' audience (absent,
single exact string, or exact list element) does not match, and no
configured audience means no check at all. -/
theorem audience_check_exact (n : Int) (c : Claims) (o : VerifyOptions)
    (hsub : ¬ c.sub = "")
    (hexp : c.exp.any (fun exp => decide (o.now.getD n > wrap64 (exp + o.leeway_secs))) = false)
    (hnbf : c.nbf.any (fun nbf => decide (wrap64 (o.now.getD n + o.leeway_secs) < nbf)) = false)
    (hiat : c.iat.any (fun iat => decide (iat > wrap64 (o.now.getD n + o.leeway_secs))) = false)
    (hiss : o.issuer.any (fun iss => decide (c.iss ≠ some iss)) = false) :
    (∀ a, o.audience = some a →
      ((check_claims n c o = .error .Audience ↔ ¬ audMatchProp a c.aud) ∧
       (check_claims n c o = .ok () ↔ audMatchProp a c.aud)))
    ∧ (o.audience = none → check_claims n c o = .ok ()) := by
  unfold check_claims
  simp only [if_neg hsub, hexp, hnbf, hiat, hiss, Bool.false_eq_true, if_false]
  constructor
  · intro a ha
    rw [ha]
    simp only []
    rcases hca : c.aud with _ | au
    · simp [audMatchProp]
    · rcases au with s | v
      · simp only []
        by_cases hs : s = a
        · rw [if_neg (by simpa using hs)]
          simp [audMatchProp, hs]
        · rw [if_pos (by simpa using hs)]
          simp [audMatchProp, hs]
      · simp only []
        by_cases hv : a ∈ v
        · have ha2 : (v.any fun x => x == a) = true :=
            List.any_eq_true.mpr ⟨a, hv, by simp⟩
          simp [ha2, audMatchProp, hv]
        · have ha2 : (v.any fun x => x == a) = false := by
            rw [List.any_eq_false]
            intro x hx
            simp only [beq_iff_eq]
            rintro rfl
            exact hv hx
          simp [ha2, audMatchProp, hv]
  · intro ha
    rw [ha]

/-- Witness for C6: a list-valued audience containing the expected value
is accepted. -/
theorem audience_check_exact_witness :
    ¬ cW6.sub = "" ∧ oW6.audience = some "demo" ∧ audMatchProp "demo" cW6.aud ∧
    check_claims 0 cW6 oW6 = .ok () :=
  ⟨by decide, rfl, by decide,
    ((audience_check_exact 0 cW6 oW6 (by decide) (by decide) (by decide) (by decide)
      (by decide)).1 "demo" rfl).2.mpr (by decide)⟩

/-- C10 (amended): whenever the additions `exp + leeway` and
`now + leeway` stay inside the `i64` range, the validator computes exactly
what the spec's unbounded-integer arithmetic prescribes (and, the
embedding being total, always returns Ok or a specific error); outside
that range the wrapped sums diverge from exact arithmetic. -/
theorem check_claims_agrees_exact (n : Int) (c : Claims) (o : VerifyOptions)
    (hexp : ∀ e, c.exp = some e → i64Range (e + o.leeway_secs))
    (hnow : i64Range (o.now.getD n + o.leeway_secs)) :
    check_claims n c o = check_claims_spec n c o := by
  unfold check_claims check_claims_spec
  simp only [wrap64_eq_self hnow]
  rcases hce : c.exp with _ | e
  · rfl
  · simp only [Option.any_some, wrap64_eq_self (hexp e hce)]

/-- Witness for C10 (amended) at small in-range values. -/
theorem check_claims_agrees_exact_witness :
    i64Range (oW10.now.getD 0 + oW10.leeway_secs) ∧
    check_claims 0 cW10 oW10 = check_claims_spec 0 cW10 oW10 ∧
    check_claims 0 cW10 oW10 = .ok () :=
  ⟨by decide,
    check_claims_agrees_exact 0 cW10 oW10 (fun e he => by cases he; decide) (by decide),
    rfl⟩

/-- Counterexample for C10 as stated: with `now = 2^63 - 1` and leeway 1
the addition `now + leeway` overflows `i64` (the wrapped value differs
from the exact sum), and the validator spuriously reports NotYetValid for
`nbf = 0` where exact arithmetic accepts. -/
theorem check_claims_overflow_nbf_cex :
    check_claims 0 cOv2 oOv2 = .error .NotYetValid ∧
    check_claims_spec 0 cOv2 oOv2 = .ok () ∧
    wrap64 ((2 ^ 63 - 1) + 1) ≠ (2 ^ 63 - 1) + 1 :=
  ⟨rfl, rfl, by decide⟩

end UblAuth
